import Mathlib

/-!
Shallow embedding of the token-parsing core of the `inth-oauth2` repository
(`src/token/bearer.rs`, `src/token/mod.rs`, `src/provider.rs`), together with
models of the pieces the source tree does not include (`client/response.rs`,
`src/token/statik.rs`, `src/token/expiring.rs`), reconstructed from the
specification.  Machine integers and the wall clock are modelled as `Int`
(seconds); JSON is an inductive value type; fallible parsing returns `Except`.
-/

set_option autoImplicit false

namespace InthOauth2

/-- JSON values, as delivered by `rustc_serialize::json::Json`.  Objects are
association lists of key/value pairs (the Rust type is a map, so keys are
unique; lookup takes the first match). -/
inductive Json where
  | null : Json
  | bool : Bool → Json
  | int : Int → Json
  | str : String → Json
  | arr : List Json → Json
  | obj : List (String × Json) → Json

/-- Modelled from the spec: the `ParseError` taxonomy of `client/response.rs`
(absent from the source tree).  `missingField` — a required field absent;
`expectedFieldValue` — a field present with a value other than an accepted
literal; `wrongType` — a field present with an incompatible JSON type;
`malformedResponse` — the top-level JSON is not an object. -/
inductive ParseError where
  | missingField : String → ParseError
  | expectedFieldValue : String → String → ParseError
  | wrongType : String → ParseError
  | malformedResponse : ParseError
deriving DecidableEq, Repr

/-- Field lookup in a JSON object (Rust `BTreeMap::get`). -/
def lookupField (o : List (String × Json)) (k : String) : Option Json :=
  (o.find? (fun p => p.1 = k)).map Prod.snd

/-- Modelled from the spec: `JsonHelper::as_object` of `client/response.rs`
(absent from the source tree) — the top-level JSON must be an object. -/
def asObject : Json → Except ParseError (List (String × Json))
  | .obj o => .ok o
  | _ => .error .malformedResponse

/-- Modelled from the spec: required-string accessor (`get_string`) of
`client/response.rs` (absent from the source tree): absent field is a
missing-field error, a non-string value a type error. -/
def getString (o : List (String × Json)) (k : String) : Except ParseError String :=
  match lookupField o k with
  | none => .error (.missingField k)
  | some (.str s) => .ok s
  | some _ => .error (.wrongType k)

/-- Modelled from the spec: optional-string accessor (`get_string_option`) of
`client/response.rs` (absent from the source tree).  Its callers in
`bearer.rs` bind the result without error handling, so it yields an `Option`:
absent or non-string means `none`. -/
def getStringOption (o : List (String × Json)) (k : String) : Option String :=
  match lookupField o k with
  | some (.str s) => some s
  | _ => none

/-- Modelled from the spec: required-integer accessor of
`client/response.rs` (absent from the source tree). -/
def getInt (o : List (String × Json)) (k : String) : Except ParseError Int :=
  match lookupField o k with
  | none => .error (.missingField k)
  | some (.int n) => .ok n
  | some _ => .error (.wrongType k)

/-! ## Lifetime variants -/

/-- The `Static` lifetime (`src/token/statik.rs`, absent from the source
tree): carries no data. -/
structure Static where
deriving DecidableEq, Repr

/-- Modelled from the spec: `Static::parse` ignores the response entirely and
always yields the singleton `Static` value. -/
def Static.from_response (_json : Json) : Except ParseError Static := .ok ⟨⟩

/-- Modelled from the spec: `Static::parse_inherit` likewise ignores both the
response and the previous value. -/
def Static.from_response_inherit (_json : Json) (_prev : Static) :
    Except ParseError Static := .ok ⟨⟩

/-- Modelled from the spec: a `Static` token never expires — `expired()` is a
constant `false`, at every current time. -/
def Static.expired (_s : Static) (_now : Int) : Bool := false

/-- The `Expiring` lifetime (`src/token/expiring.rs`, absent from the source
tree): an absolute expiry instant and a refresh token. -/
structure Expiring where
  refresh_token : String
  expires_at : Int
deriving DecidableEq, Repr

/-- Modelled from the spec: `Expiring::parse` requires `expires_in` (integer
seconds) and `refresh_token` (string); fails with a missing-field error if
either is absent; computes `expires_at = now + expires_in`.  The current time
is passed explicitly. -/
def Expiring.from_response (now : Int) (json : Json) : Except ParseError Expiring :=
  match asObject json with
  | .error e => .error e
  | .ok o =>
    match getInt o "expires_in" with
    | .error e => .error e
    | .ok expires_in =>
      match getString o "refresh_token" with
      | .error e => .error e
      | .ok refresh => .ok { refresh_token := refresh, expires_at := now + expires_in }

/-- Modelled from the spec: `Expiring::parse_inherit` requires `expires_in`;
`refresh_token` is optional — if present use it, else reuse the previous
value's; `expires_at` is always recomputed from the new `expires_in` and the
current time. -/
def Expiring.from_response_inherit (now : Int) (json : Json) (prev : Expiring) :
    Except ParseError Expiring :=
  match asObject json with
  | .error e => .error e
  | .ok o =>
    match getInt o "expires_in" with
    | .error e => .error e
    | .ok expires_in =>
      .ok { refresh_token := (getStringOption o "refresh_token").getD prev.refresh_token,
            expires_at := now + expires_in }

/-- Modelled from the spec: `expired()` is true iff the current time is at or
past `expires_at`. -/
def Expiring.expired (e : Expiring) (now : Int) : Bool := e.expires_at ≤ now

/-! ## Bearer token (`src/token/bearer.rs`) -/

/-- `Bearer<L>` (bearer.rs lines 14–20): access token, optional scope, the
lifetime value, optional OpenID `id_token`. -/
structure Bearer (L : Type) where
  access_token : String
  scope : Option String
  lifetime : L
  id_token : Option String
deriving DecidableEq, Repr

/-- `Bearer::from_response_and_lifetime` (bearer.rs lines 36–54): require the
top level to be an object; require `token_type` to be exactly `"Bearer"` or
`"bearer"`, else `ExpectedFieldValue("token_type", "Bearer")`; require
`access_token`; read optional `scope` and `id_token`. -/
def Bearer.from_response_and_lifetime {L : Type} (json : Json) (lifetime : L) :
    Except ParseError (Bearer L) :=
  match asObject json with
  | .error e => .error e
  | .ok o =>
    match getString o "token_type" with
    | .error e => .error e
    | .ok token_type =>
      if token_type ≠ "Bearer" ∧ token_type ≠ "bearer" then
        .error (.expectedFieldValue "token_type" "Bearer")
      else
        match getString o "access_token" with
        | .error e => .error e
        | .ok access_token =>
          .ok { access_token := access_token,
                scope := getStringOption o "scope",
                lifetime := lifetime,
                id_token := getStringOption o "id_token" }

/-- `Bearer::<Static>::from_response` (bearer.rs lines 58–61): parse the
lifetime first, then the token fields. -/
def Bearer.from_response_static (json : Json) : Except ParseError (Bearer Static) :=
  match Static.from_response json with
  | .error e => .error e
  | .ok lifetime => Bearer.from_response_and_lifetime json lifetime

/-- `Bearer::<Expiring>::from_response` (bearer.rs lines 58–61): parse the
lifetime first, then the token fields. -/
def Bearer.from_response_expiring (now : Int) (json : Json) :
    Except ParseError (Bearer Expiring) :=
  match Expiring.from_response now json with
  | .error e => .error e
  | .ok lifetime => Bearer.from_response_and_lifetime json lifetime

/-- `Bearer::<Static>::from_response_inherit` (bearer.rs lines 63–66): the
previous value contributes only its `lifetime` field. -/
def Bearer.from_response_inherit_static (json : Json) (prev : Bearer Static) :
    Except ParseError (Bearer Static) :=
  match Static.from_response_inherit json prev.lifetime with
  | .error e => .error e
  | .ok lifetime => Bearer.from_response_and_lifetime json lifetime

/-- `Bearer::<Expiring>::from_response_inherit` (bearer.rs lines 63–66): the
previous value contributes only its `lifetime` field. -/
def Bearer.from_response_inherit_expiring (now : Int) (json : Json)
    (prev : Bearer Expiring) : Except ParseError (Bearer Expiring) :=
  match Expiring.from_response_inherit now json prev.lifetime with
  | .error e => .error e
  | .ok lifetime => Bearer.from_response_and_lifetime json lifetime

/-! ## Provider registry (`src/provider.rs`) -/

/-- Which `Lifetime` a provider's token endpoint is parsed as. -/
inductive LifetimeKind where
  | static : LifetimeKind
  | expiring : LifetimeKind
deriving DecidableEq, Repr

/-- The `Provider` trait (provider.rs lines 6–36) as a record of its static
data: endpoint URIs, the lifetime pairing, and `credentials_in_body`, whose
trait-level default is `false`. -/
structure Provider where
  auth_uri : String
  token_uri : String
  lifetime : LifetimeKind
  credentials_in_body : Bool := false
deriving DecidableEq, Repr

/-- `Google` (provider.rs lines 44–49): expiring tokens; does not override
`credentials_in_body`. -/
def google : Provider :=
  { auth_uri := "https://accounts.google.com/o/oauth2/v2/auth",
    token_uri := "https://www.googleapis.com/oauth2/v4/token",
    lifetime := .expiring }

/-- `GitHub` (provider.rs lines 56–61): static tokens; does not override
`credentials_in_body`. -/
def gitHub : Provider :=
  { auth_uri := "https://github.com/login/oauth/authorize",
    token_uri := "https://github.com/login/oauth/access_token",
    lifetime := .static }

/-- `Imgur` (provider.rs lines 68–73): expiring tokens; does not override
`credentials_in_body`. -/
def imgur : Provider :=
  { auth_uri := "https://api.imgur.com/oauth2/authorize",
    token_uri := "https://api.imgur.com/oauth2/token",
    lifetime := .expiring }

/-! ## Persisted form: serde (de)serialization (`src/token/bearer.rs` lines 69–164) -/

/-- Serde deserialization errors (the abstract `V::Error` of the visitors):
a missing required field (`visitor.missing_field`), a field name outside the
accepted set (`de::Error::syntax` in `FieldVisitor::visit_str`), or a value of
the wrong shape for its slot. -/
inductive DeError where
  | missingField : String → DeError
  | invalidFieldName : String → DeError
  | invalidType : DeError
deriving DecidableEq, Repr

/-- Serde's serialization of `Option<String>` into JSON: `None` is `null`,
`Some` the plain string. -/
def serializeOptionString : Option String → Json
  | none => .null
  | some s => .str s

/-- Serde's deserialization of `String` from JSON. -/
def deserializeString : Json → Except DeError String
  | .str s => .ok s
  | _ => .error .invalidType

/-- Modelled from the spec: the `Serialize` impl of `Static`
(`src/token/statik.rs`, absent from the source tree) — `Static` serializes as
an empty/marker value. -/
def Static.serialize (_s : Static) : Json := .null

/-- Modelled from the spec: the `Deserialize` impl of `Static`
(`src/token/statik.rs`, absent from the source tree) — accepts exactly the
marker value. -/
def Static.deserialize : Json → Except DeError Static
  | .null => .ok ⟨⟩
  | _ => .error .invalidType

/-- Modelled from the spec: the `Serialize` impl of `Expiring`
(`src/token/expiring.rs`, absent from the source tree) — `Expiring`
serializes its absolute expiry and refresh token. -/
def Expiring.serialize (e : Expiring) : Json :=
  .obj [("expires", .int e.expires_at), ("refresh_token", .str e.refresh_token)]

/-- Modelled from the spec: the `Deserialize` impl of `Expiring`
(`src/token/expiring.rs`, absent from the source tree) — reads back the
expiry and refresh token. -/
def Expiring.deserialize : Json → Except DeError Expiring
  | .obj [("expires", .int n), ("refresh_token", .str s)] =>
      .ok { refresh_token := s, expires_at := n }
  | _ => .error .invalidType

/-- `SerVisitor` (bearer.rs lines 75–89): the persisted form is an object with
the four fields emitted in order. -/
def Bearer.serialize {L : Type} (serL : L → Json) (b : Bearer L) : Json :=
  .obj [("access_token", .str b.access_token),
        ("scope", serializeOptionString b.scope),
        ("lifetime", serL b.lifetime),
        ("id_token", serializeOptionString b.id_token)]

/-- `Field` (bearer.rs lines 138–143): the accepted field names of the
persisted form. -/
inductive Field where
  | accessToken : Field
  | scope : Field
  | lifetime : Field
  | idToken : Field
deriving DecidableEq, Repr

/-- The persisted-form key corresponding to each `Field`. -/
def Field.name : Field → String
  | .accessToken => "access_token"
  | .scope => "scope"
  | .lifetime => "lifetime"
  | .idToken => "id_token"

/-- `FieldVisitor::visit_str` (bearer.rs lines 155–163): map a key to its
`Field`, any other name being a syntax error. -/
def fieldVisitor (k : String) : Except DeError Field :=
  if k = "access_token" then .ok .accessToken
  else if k = "scope" then .ok .scope
  else if k = "lifetime" then .ok .lifetime
  else if k = "id_token" then .ok .idToken
  else .error (.invalidFieldName "expected access_token, scope, lifetime or id_token")

/-- The mutable slots of `DeVisitor::visit_map` (bearer.rs lines 103–106),
all initially `None`.  The `scope` and `id_token` slots are the final struct
fields themselves (`Option<String>`), so their values deserialize as plain
strings — a `null` value is a type error, only an *absent* key yields `None`. -/
structure DeState (L : Type) where
  access_token : Option String := none
  scope : Option String := none
  lifetime : Option L := none
  id_token : Option String := none

/-- The key/value loop of `DeVisitor::visit_map` (bearer.rs lines 108–116):
deserialize each key via `FieldVisitor`, then its value into the matching
slot (each slot set to `Some` of a value of the slot's inner type). -/
def visitEntries {L : Type} (deL : Json → Except DeError L) :
    List (String × Json) → DeState L → Except DeError (DeState L)
  | [], st => .ok st
  | (k, v) :: rest, st =>
    match fieldVisitor k with
    | .error e => .error e
    | .ok .accessToken =>
      match deserializeString v with
      | .error e => .error e
      | .ok s => visitEntries deL rest { st with access_token := some s }
    | .ok .scope =>
      match deserializeString v with
      | .error e => .error e
      | .ok s => visitEntries deL rest { st with scope := some s }
    | .ok .lifetime =>
      match deL v with
      | .error e => .error e
      | .ok l => visitEntries deL rest { st with lifetime := some l }
    | .ok .idToken =>
      match deserializeString v with
      | .error e => .error e
      | .ok s => visitEntries deL rest { st with id_token := some s }

/-- `DeVisitor::visit_map` composed with `Deserialize for Bearer`
(bearer.rs lines 91–136): run the key/value loop over the object's entries,
then require the `access_token` and `lifetime` slots to be filled; the
`scope` and `id_token` slots are used as-is (`None` when the key was
absent). -/
def Bearer.deserialize {L : Type} (deL : Json → Except DeError L) (j : Json) :
    Except DeError (Bearer L) :=
  match j with
  | .obj entries =>
    match visitEntries deL entries {} with
    | .error e => .error e
    | .ok st =>
      match st.access_token with
      | none => .error (.missingField "access_token")
      | some a =>
        match st.lifetime with
        | none => .error (.missingField "lifetime")
        | some l =>
          .ok { access_token := a, scope := st.scope,
                lifetime := l, id_token := st.id_token }
  | _ => .error .invalidType

/-! ## Theorems -/

/-- C7: `Static::parse` and `Static::parse_inherit` succeed on every input
JSON (the response content is ignored entirely), always yielding the
singleton `Static` value, and `Static.expired()` returns `false` for every
`Static` value at every time. -/
theorem static_lifetime_trivial :
    (∀ j : Json, Static.from_response j = .ok ⟨⟩)
    ∧ (∀ (j : Json) (prev : Static), Static.from_response_inherit j prev = .ok ⟨⟩)
    ∧ (∀ (s : Static) (t : Int), Static.expired s t = false) :=
  ⟨fun _ => rfl, fun _ _ => rfl, fun _ _ => rfl⟩

/-- C8: `credentials_in_body` defaults to `false` and none of the three named
providers overrides it; exactly one of the three (GitHub) pairs with the
non-expiring `Static` lifetime while Google and Imgur pair with `Expiring`. -/
theorem provider_registry_facts :
    (∀ (a t : String) (lt : LifetimeKind),
      ({ auth_uri := a, token_uri := t, lifetime := lt } : Provider).credentials_in_body = false)
    ∧ google.credentials_in_body = false
    ∧ gitHub.credentials_in_body = false
    ∧ imgur.credentials_in_body = false
    ∧ gitHub.lifetime = .static
    ∧ google.lifetime = .expiring
    ∧ imgur.lifetime = .expiring
    ∧ [google, gitHub, imgur].countP (fun p => p.lifetime = .static) = 1 :=
  ⟨fun _ _ _ => rfl, rfl, rfl, rfl, rfl, rfl, rfl, rfl⟩

/-- C9: `Bearer::from_response_inherit` depends on the previous value only
through its `lifetime` field — two previous values with equal lifetime give
identical results on any fixed input JSON, for either lifetime variant. -/
theorem inherit_depends_only_on_lifetime :
    (∀ (now : Int) (json : Json) (p1 p2 : Bearer Expiring), p1.lifetime = p2.lifetime →
      Bearer.from_response_inherit_expiring now json p1
        = Bearer.from_response_inherit_expiring now json p2)
    ∧ (∀ (json : Json) (p1 p2 : Bearer Static), p1.lifetime = p2.lifetime →
      Bearer.from_response_inherit_static json p1 = Bearer.from_response_inherit_static json p2) := by
  constructor
  · intro now json p1 p2 h
    simp only [Bearer.from_response_inherit_expiring, h]
  · intro json p1 p2 h
    simp only [Bearer.from_response_inherit_static, h]

/-- Witness for C9: two concrete previous values differing in access token,
scope and id token but sharing a lifetime give the same inherited parse. -/
theorem inherit_depends_only_on_lifetime_witness :
    Bearer.from_response_inherit_expiring 0
        (Json.obj [("token_type", Json.str "Bearer"), ("access_token", Json.str "cccccccc"),
                   ("expires_in", Json.int 3600)])
        { access_token := "aaaaaaaa", scope := some "foo",
          lifetime := { refresh_token := "bbbbbbbb", expires_at := 100 }, id_token := none }
      = Bearer.from_response_inherit_expiring 0
        (Json.obj [("token_type", Json.str "Bearer"), ("access_token", Json.str "cccccccc"),
                   ("expires_in", Json.int 3600)])
        { access_token := "zzzzzzzz", scope := none,
          lifetime := { refresh_token := "bbbbbbbb", expires_at := 100 },
          id_token := some "jwt" } :=
  inherit_depends_only_on_lifetime.1 0 _ _ _ rfl

/-- C6 (failing evaluation): the persisted form does not round-trip for a
valid Bearer value whose `scope` and `id_token` are `None`: the serializer
emits `null` for those fields, and the deserializer reads their values as
plain strings, so deserialization fails with a type error instead of
reproducing the value.  A value with both options present does round-trip. -/
theorem serde_roundtrip_fails_for_none_fields :
    Bearer.serialize Static.serialize
        { access_token := "foo", scope := none, lifetime := ⟨⟩, id_token := none }
      = Json.obj [("access_token", Json.str "foo"), ("scope", Json.null),
                  ("lifetime", Json.null), ("id_token", Json.null)]
    ∧ Bearer.deserialize Static.deserialize
        (Bearer.serialize Static.serialize
          { access_token := "foo", scope := none, lifetime := ⟨⟩, id_token := none })
      = .error .invalidType
    ∧ Bearer.deserialize Static.deserialize
        (Bearer.serialize Static.serialize
          { access_token := "foo", scope := some "bar", lifetime := ⟨⟩, id_token := some "baz" })
      = .ok { access_token := "foo", scope := some "bar", lifetime := ⟨⟩, id_token := some "baz" } :=
  ⟨rfl, rfl, rfl⟩

/-- C1 (counterexample): `"BEARER"` is case-insensitively `"bearer"`, yet a
response with `token_type = "BEARER"` is rejected — the code compares against
the two exact literals `"Bearer"` and `"bearer"` only. -/
theorem bearer_token_type_uppercase_rejected :
    "BEARER".data.map Char.toLower = "bearer".data
    ∧ Bearer.from_response_static
        (Json.obj [("token_type", Json.str "BEARER"), ("access_token", Json.str "aaaaaaaa")])
      = .error (.expectedFieldValue "token_type" "Bearer") :=
  ⟨by decide, rfl⟩

/-- C1 (amended): token-field parsing succeeds only if `token_type` is
exactly `"Bearer"` or `"bearer"`; every other `token_type` string (including
other case variants) fails with exactly
`ExpectedFieldValue("token_type", "Bearer")`; and with a valid `token_type`
and a present `access_token` it succeeds, the result carrying the input's
`access_token`. -/
theorem bearer_token_type_exact_match {L : Type} (l : L)
    (entries : List (String × Json)) (tt : String)
    (htt : getString entries "token_type" = .ok tt) :
    (tt ≠ "Bearer" ∧ tt ≠ "bearer" →
      Bearer.from_response_and_lifetime (Json.obj entries) l
        = .error (.expectedFieldValue "token_type" "Bearer"))
    ∧ (∀ b, Bearer.from_response_and_lifetime (Json.obj entries) l = .ok b →
        tt = "Bearer" ∨ tt = "bearer")
    ∧ (∀ a, (tt = "Bearer" ∨ tt = "bearer") → getString entries "access_token" = .ok a →
        ∃ b, Bearer.from_response_and_lifetime (Json.obj entries) l = .ok b
          ∧ b.access_token = a) := by
  refine ⟨?_, ?_, ?_⟩
  · intro h
    simp only [Bearer.from_response_and_lifetime, asObject, htt, if_pos h]
  · intro b hb
    by_contra hc
    push_neg at hc
    simp only [Bearer.from_response_and_lifetime, asObject, htt, if_pos hc] at hb
    exact Except.noConfusion hb
  · intro a htt2 ha
    have hcond : ¬(tt ≠ "Bearer" ∧ tt ≠ "bearer") := by
      rcases htt2 with h | h <;> simp [h]
    simp only [Bearer.from_response_and_lifetime, asObject, htt, if_neg hcond, ha]
    exact ⟨_, rfl, rfl⟩

/-- Witness for C1 (amended): concrete applications — `"MAC"` is rejected
with the expected error, `"Bearer"` with a present access token succeeds and
carries it through. -/
theorem bearer_token_type_exact_match_witness :
    Bearer.from_response_and_lifetime
        (Json.obj [("token_type", Json.str "MAC"), ("access_token", Json.str "aaaaaaaa")])
        (⟨⟩ : Static)
      = .error (.expectedFieldValue "token_type" "Bearer")
    ∧ ∃ b, Bearer.from_response_and_lifetime
        (Json.obj [("token_type", Json.str "Bearer"), ("access_token", Json.str "aaaaaaaa")])
        (⟨⟩ : Static)
      = .ok b ∧ b.access_token = "aaaaaaaa" :=
  ⟨(bearer_token_type_exact_match ⟨⟩
      [("token_type", Json.str "MAC"), ("access_token", Json.str "aaaaaaaa")]
      "MAC" (by rfl)).1 (by decide),
   (bearer_token_type_exact_match ⟨⟩
      [("token_type", Json.str "Bearer"), ("access_token", Json.str "aaaaaaaa")]
      "Bearer" (by rfl)).2.2 "aaaaaaaa" (Or.inl rfl) (by rfl)⟩

/-- C3 (counterexample): a response whose `access_token` is present but equal
to the empty string parses successfully, yielding a Bearer value with an
empty `access_token` — emptiness is never checked. -/
theorem empty_access_token_parses :
    Bearer.from_response_static
        (Json.obj [("token_type", Json.str "Bearer"), ("access_token", Json.str "")])
      = .ok { access_token := "", scope := none, lifetime := ⟨⟩, id_token := none } :=
  rfl

/-- C3 (amended): when `token_type` is valid (and the lifetime already
parsed), a response lacking the `access_token` field fails with exactly
`MissingField("access_token")`; but emptiness of a present `access_token` is
not checked, so a successful parse may carry an empty access token. -/
theorem missing_access_token_error {L : Type} (l : L)
    (entries : List (String × Json))
    (htt : getString entries "token_type" = .ok "Bearer"
           ∨ getString entries "token_type" = .ok "bearer")
    (hat : lookupField entries "access_token" = none) :
    Bearer.from_response_and_lifetime (Json.obj entries) l
      = .error (.missingField "access_token")
    ∧ ∃ b, Bearer.from_response_static
        (Json.obj [("token_type", Json.str "Bearer"), ("access_token", Json.str "")])
      = .ok b ∧ b.access_token = "" := by
  constructor
  · have ha : getString entries "access_token" = .error (.missingField "access_token") := by
      simp only [getString, hat]
    rcases htt with h | h <;>
      simp only [Bearer.from_response_and_lifetime, asObject, h, ha] <;> rfl
  · exact ⟨_, rfl, rfl⟩

/-- Witness for C3 (amended): a concrete response with a valid `token_type`
and no `access_token` field fails with `MissingField("access_token")`. -/
theorem missing_access_token_error_witness :
    Bearer.from_response_and_lifetime
        (Json.obj [("token_type", Json.str "Bearer"), ("scope", Json.str "foo")])
        (⟨⟩ : Static)
      = .error (.missingField "access_token")
    ∧ ∃ b, Bearer.from_response_static
        (Json.obj [("token_type", Json.str "Bearer"), ("access_token", Json.str "")])
      = .ok b ∧ b.access_token = "" :=
  missing_access_token_error ⟨⟩
    [("token_type", Json.str "Bearer"), ("scope", Json.str "foo")]
    (Or.inl (by rfl)) (by rfl)

/-- C4 (counterexample): for a `Bearer<Expiring>` response with an invalid
`token_type` that also omits `expires_in`, the returned error is
`MissingField("expires_in")` — the lifetime is parsed before the token fields
are validated, so it is not the predicted token-type error. -/
theorem invalid_token_type_missing_expires_in_error :
    Bearer.from_response_expiring 0
        (Json.obj [("token_type", Json.str "MAC"), ("access_token", Json.str "aaaaaaaa")])
      = .error (.missingField "expires_in")
    ∧ (ParseError.missingField "expires_in"
        ≠ ParseError.expectedFieldValue "token_type" "Bearer") :=
  ⟨rfl, by decide⟩

/-- C4 (amended): `Bearer::from_response` parses the nested `Lifetime` first
and validates `token_type`/`access_token` only afterwards; any lifetime parse
error is returned as-is, so a `Bearer<Expiring>` response omitting
`expires_in` fails with `MissingField("expires_in")` whatever its
`token_type`. -/
theorem lifetime_parsed_first :
    (∀ (now : Int) (j : Json) (e : ParseError), Expiring.from_response now j = .error e →
      Bearer.from_response_expiring now j = .error e)
    ∧ (∀ (now : Int) (entries : List (String × Json)),
        lookupField entries "expires_in" = none →
        Bearer.from_response_expiring now (Json.obj entries)
          = .error (.missingField "expires_in")) := by
  constructor
  · intro now j e h
    simp only [Bearer.from_response_expiring, h]
  · intro now entries h
    have hl : Expiring.from_response now (Json.obj entries)
        = .error (.missingField "expires_in") := by
      simp only [Expiring.from_response, asObject, getInt, h]
    simp only [Bearer.from_response_expiring, hl]

/-- Witness for C4 (amended): the concrete invalid-token-type response from
the spec's scenario, with no `expires_in`, fails with the missing-field
error. -/
theorem lifetime_parsed_first_witness :
    Bearer.from_response_expiring 0
        (Json.obj [("token_type", Json.str "MAC"), ("access_token", Json.str "aaaaaaaa")])
      = .error (.missingField "expires_in") :=
  lifetime_parsed_first.2 0
    [("token_type", Json.str "MAC"), ("access_token", Json.str "aaaaaaaa")] (by rfl)

/-- C2: an inherited `Bearer<Expiring>` parse of an otherwise-valid response
without `refresh_token` succeeds and preserves the previous value's
`refresh_token` exactly; with a `refresh_token` present, the JSON's value
overrides the previous one. -/
theorem inherit_refresh_token_semantics (now : Int)
    (entries : List (String × Json)) (prev : Bearer Expiring)
    (htt : getString entries "token_type" = .ok "Bearer"
           ∨ getString entries "token_type" = .ok "bearer")
    (hat : ∃ a, getString entries "access_token" = .ok a)
    (hei : ∃ n, getInt entries "expires_in" = .ok n) :
    (lookupField entries "refresh_token" = none →
      ∃ b, Bearer.from_response_inherit_expiring now (Json.obj entries) prev = .ok b
        ∧ b.lifetime.refresh_token = prev.lifetime.refresh_token)
    ∧ (∀ s, lookupField entries "refresh_token" = some (Json.str s) →
      ∃ b, Bearer.from_response_inherit_expiring now (Json.obj entries) prev = .ok b
        ∧ b.lifetime.refresh_token = s) := by
  obtain ⟨a, ha⟩ := hat
  obtain ⟨n, hn⟩ := hei
  constructor
  · intro hrt
    have hopt : getStringOption entries "refresh_token" = none := by
      simp only [getStringOption, hrt]
    rcases htt with h | h <;>
      simp only [Bearer.from_response_inherit_expiring, Expiring.from_response_inherit,
        asObject, hn, hopt, Option.getD, Bearer.from_response_and_lifetime, h, ha] <;>
      exact ⟨_, rfl, rfl⟩
  · intro s hrt
    have hopt : getStringOption entries "refresh_token" = some s := by
      simp only [getStringOption, hrt]
    rcases htt with h | h <;>
      simp only [Bearer.from_response_inherit_expiring, Expiring.from_response_inherit,
        asObject, hn, hopt, Option.getD, Bearer.from_response_and_lifetime, h, ha] <;>
      exact ⟨_, rfl, rfl⟩

/-- Witness for C2: the spec's scenario 5 — given a previous value with
refresh token `"bbbbbbbb"`, an inherited parse of a refresh response without
`refresh_token` succeeds and keeps `"bbbbbbbb"`; with `"dddddddd"` present it
overrides. -/
theorem inherit_refresh_token_semantics_witness :
    (∃ b, Bearer.from_response_inherit_expiring 0
        (Json.obj [("token_type", Json.str "Bearer"), ("access_token", Json.str "cccccccc"),
                   ("expires_in", Json.int 3600)])
        { access_token := "aaaaaaaa", scope := none,
          lifetime := { refresh_token := "bbbbbbbb", expires_at := 50 }, id_token := none }
      = .ok b ∧ b.lifetime.refresh_token = "bbbbbbbb")
    ∧ (∃ b, Bearer.from_response_inherit_expiring 0
        (Json.obj [("token_type", Json.str "Bearer"), ("access_token", Json.str "cccccccc"),
                   ("expires_in", Json.int 3600), ("refresh_token", Json.str "dddddddd")])
        { access_token := "aaaaaaaa", scope := none,
          lifetime := { refresh_token := "bbbbbbbb", expires_at := 50 }, id_token := none }
      = .ok b ∧ b.lifetime.refresh_token = "dddddddd") :=
  ⟨(inherit_refresh_token_semantics 0
      [("token_type", Json.str "Bearer"), ("access_token", Json.str "cccccccc"),
       ("expires_in", Json.int 3600)]
      _ (Or.inl (by rfl)) ⟨"cccccccc", by rfl⟩ ⟨3600, by rfl⟩).1 (by rfl),
   (inherit_refresh_token_semantics 0
      [("token_type", Json.str "Bearer"), ("access_token", Json.str "cccccccc"),
       ("expires_in", Json.int 3600), ("refresh_token", Json.str "dddddddd")]
      _ (Or.inl (by rfl)) ⟨"cccccccc", by rfl⟩ ⟨3600, by rfl⟩).2 "dddddddd" (by rfl)⟩

/-- C5: every `Expiring` value parsed (fresh or inherited) at time `now` from
a response with `expires_in = n` has `expires_at = now + n` — never an
absolute time off the wire and never inherited from the previous value — and
`expired` at time `t` is `false` while `t < expires_at` and `true` once
`expires_at ≤ t`. -/
theorem expiring_expiry_computation :
    (∀ (now : Int) (entries : List (String × Json)) (n : Int),
      getInt entries "expires_in" = .ok n →
      (∀ e, Expiring.from_response now (Json.obj entries) = .ok e → e.expires_at = now + n)
      ∧ (∀ (prev : Expiring) e,
          Expiring.from_response_inherit now (Json.obj entries) prev = .ok e →
          e.expires_at = now + n))
    ∧ (∀ (e : Expiring) (t : Int),
        (t < e.expires_at → e.expired t = false)
        ∧ (e.expires_at ≤ t → e.expired t = true)) := by
  constructor
  · intro now entries n hn
    constructor
    · intro e he
      simp only [Expiring.from_response, asObject, hn] at he
      rcases hrt : getString entries "refresh_token" with s | s <;> rw [hrt] at he
      · exact Except.noConfusion he
      · cases he
        rfl
    · intro prev e he
      simp only [Expiring.from_response_inherit, asObject, hn] at he
      cases he
      rfl
  · intro e t
    constructor
    · intro h
      simp only [Expiring.expired, decide_eq_false_iff_not, not_le]
      exact h
    · intro h
      simp only [Expiring.expired, decide_eq_true_eq]
      exact h

/-- Witness for C5: the spec's scenario 4 response parsed at time `0` with
`expires_in = 3600` has `expires_at = 3600`, and that value is unexpired at
`t = 3599` and expired at `t = 3600`. -/
theorem expiring_expiry_computation_witness :
    (∀ e, Expiring.from_response 0
        (Json.obj [("token_type", Json.str "Bearer"), ("access_token", Json.str "aaaaaaaa"),
                   ("expires_in", Json.int 3600), ("refresh_token", Json.str "bbbbbbbb")])
      = .ok e → e.expires_at = 0 + 3600)
    ∧ ({ refresh_token := "bbbbbbbb", expires_at := 3600 } : Expiring).expired 3599 = false
    ∧ ({ refresh_token := "bbbbbbbb", expires_at := 3600 } : Expiring).expired 3600 = true :=
  ⟨(expiring_expiry_computation.1 0
      [("token_type", Json.str "Bearer"), ("access_token", Json.str "aaaaaaaa"),
       ("expires_in", Json.int 3600), ("refresh_token", Json.str "bbbbbbbb")]
      3600 (by rfl)).1,
   (expiring_expiry_computation.2 _ 3599).1 (by decide),
   (expiring_expiry_computation.2 _ 3600).2 (by decide)⟩

/-- Inversion for `fieldVisitor`: a successfully visited key is the matched
field's name. -/
theorem fieldVisitor_ok_name {k : String} {f : Field} (h : fieldVisitor k = .ok f) :
    k = f.name := by
  unfold fieldVisitor at h
  split_ifs at h
  all_goals first
    | exact Except.noConfusion h
    | (cases h; simp only [Field.name]; assumption)

/-- One step of the `visit_map` loop either fails or proceeds to the tail
with some updated state. -/
theorem visitEntries_cons_step {L : Type} (deL : Json → Except DeError L)
    (k : String) (v : Json) (rest : List (String × Json)) (st : DeState L) :
    (∃ e, visitEntries deL ((k, v) :: rest) st = .error e)
    ∨ (∃ st2, visitEntries deL ((k, v) :: rest) st = visitEntries deL rest st2) := by
  rcases hfv : fieldVisitor k with e | f
  · exact Or.inl ⟨e, by simp only [visitEntries, hfv]⟩
  · cases f with
    | accessToken =>
      rcases hds : deserializeString v with e | s
      · exact Or.inl ⟨e, by simp only [visitEntries, hfv, hds]⟩
      · refine Or.inr ⟨{ st with access_token := some s }, ?_⟩
        simp only [visitEntries, hfv, hds]
    | scope =>
      rcases hds : deserializeString v with e | s
      · exact Or.inl ⟨e, by simp only [visitEntries, hfv, hds]⟩
      · refine Or.inr ⟨{ st with scope := some s }, ?_⟩
        simp only [visitEntries, hfv, hds]
    | lifetime =>
      rcases hds : deL v with e | l
      · exact Or.inl ⟨e, by simp only [visitEntries, hfv, hds]⟩
      · refine Or.inr ⟨{ st with lifetime := some l }, ?_⟩
        simp only [visitEntries, hfv, hds]
    | idToken =>
      rcases hds : deserializeString v with e | s
      · exact Or.inl ⟨e, by simp only [visitEntries, hfv, hds]⟩
      · refine Or.inr ⟨{ st with id_token := some s }, ?_⟩
        simp only [visitEntries, hfv, hds]

/-- The `visit_map` loop fails whenever the entries contain a key outside the
four accepted field names. -/
theorem visitEntries_error_of_bad_key {L : Type} (deL : Json → Except DeError L) :
    ∀ (entries : List (String × Json)) (st : DeState L) (p : String × Json),
      p ∈ entries →
      p.1 ∉ (["access_token", "scope", "lifetime", "id_token"] : List String) →
      ∃ e, visitEntries deL entries st = .error e := by
  intro entries
  induction entries with
  | nil => intro st p hp _; exact absurd hp (List.not_mem_nil p)
  | cons head rest ih =>
    intro st p hp hbad
    obtain ⟨k, v⟩ := head
    rcases List.mem_cons.mp hp with heq | hmem
    · subst heq
      simp only [List.mem_cons, List.not_mem_nil, not_or, or_false] at hbad
      obtain ⟨h1, h2, h3, h4⟩ := hbad
      have hfv : fieldVisitor k
          = .error (.invalidFieldName "expected access_token, scope, lifetime or id_token") := by
        simp [fieldVisitor, h1, h2, h3, h4]
      refine ⟨.invalidFieldName "expected access_token, scope, lifetime or id_token", ?_⟩
      simp only [visitEntries, hfv]
    · rcases visitEntries_cons_step deL k v rest st with ⟨e, he⟩ | ⟨st2, hst⟩
      · exact ⟨e, he⟩
      · obtain ⟨e, he⟩ := ih st2 p hmem hbad
        exact ⟨e, hst.trans he⟩

/-- A slot whose key never occurs in the entries is left unchanged by the
`visit_map` loop, for each of the four slots. -/
theorem visitEntries_unvisited_slots {L : Type} (deL : Json → Except DeError L) :
    ∀ (entries : List (String × Json)) (st st' : DeState L),
      visitEntries deL entries st = .ok st' →
      ("access_token" ∉ entries.map Prod.fst → st'.access_token = st.access_token)
      ∧ ("scope" ∉ entries.map Prod.fst → st'.scope = st.scope)
      ∧ ("lifetime" ∉ entries.map Prod.fst → st'.lifetime = st.lifetime)
      ∧ ("id_token" ∉ entries.map Prod.fst → st'.id_token = st.id_token) := by
  intro entries
  induction entries with
  | nil =>
    intro st st' h
    simp only [visitEntries] at h
    cases h
    exact ⟨fun _ => rfl, fun _ => rfl, fun _ => rfl, fun _ => rfl⟩
  | cons head rest ih =>
    obtain ⟨k, v⟩ := head
    intro st st' h
    simp only [visitEntries] at h
    split at h
    · exact Except.noConfusion h
    all_goals
      rename_i heq
      split at h
      · exact Except.noConfusion h
      · have hk := fieldVisitor_ok_name heq
        simp only [Field.name] at hk
        subst hk
        obtain ⟨i1, i2, i3, i4⟩ := ih _ _ h
        refine ⟨?_, ?_, ?_, ?_⟩ <;> intro hm <;>
          rw [List.map_cons] at hm <;>
          first
            | exact absurd (List.mem_cons_self _ _) hm
            | (have hm' := fun hc => hm (List.mem_cons_of_mem _ hc)
               first
                 | exact i1 hm'
                 | exact i2 hm'
                 | exact i3 hm'
                 | exact i4 hm')

/-- A key that occurs among an object's keys but differs from the head entry's
key occurs among the tail's keys. -/
theorem mem_tail_of_key_mismatch {x k : String} {v : Json} {rest : List (String × Json)}
    (hne : x ≠ k) (hs : x ∈ List.map Prod.fst ((k, v) :: rest)) :
    x ∈ List.map Prod.fst rest := by
  rw [List.map_cons] at hs
  rcases List.mem_cons.mp hs with hh | hh
  · exact absurd hh hne
  · exact hh

/-- If the `visit_map` loop succeeds and a slot was already filled or its key
occurs among the entries, the slot is filled afterwards (`access_token` and
`lifetime`). -/
theorem visitEntries_filled_slots {L : Type} (deL : Json → Except DeError L) :
    ∀ (entries : List (String × Json)) (st st' : DeState L),
      visitEntries deL entries st = .ok st' →
      ((st.access_token.isSome ∨ "access_token" ∈ entries.map Prod.fst) →
        st'.access_token.isSome)
      ∧ ((st.lifetime.isSome ∨ "lifetime" ∈ entries.map Prod.fst) →
        st'.lifetime.isSome) := by
  intro entries
  induction entries with
  | nil =>
    intro st st' h
    simp only [visitEntries] at h
    cases h
    constructor <;> intro hm <;> exact hm.resolve_right (by simp)
  | cons head rest ih =>
    obtain ⟨k, v⟩ := head
    intro st st' h
    simp only [visitEntries] at h
    split at h
    · exact Except.noConfusion h
    all_goals
      rename_i heq
      split at h
      · exact Except.noConfusion h
      · have hk := fieldVisitor_ok_name heq
        simp only [Field.name] at hk
        subst hk
        obtain ⟨i1, i2⟩ := ih _ _ h
        constructor <;> intro hm <;>
          first
            | exact i1 (Or.inl rfl)
            | exact i2 (Or.inl rfl)
            | exact i1 (hm.imp id (mem_tail_of_key_mismatch (by decide)))
            | exact i2 (hm.imp id (mem_tail_of_key_mismatch (by decide)))

/-- C10: deserializing the persisted Bearer form fails on any object
containing a field name other than the four accepted ones; given that the
key/value loop itself succeeds, a missing `access_token` yields
`MissingField("access_token")` and a present `access_token` with a missing
`lifetime` yields `MissingField("lifetime")`; and when `scope` and
`id_token` are absent the parse succeeds with both set to `None`. -/
theorem bearer_deserialize_field_handling {L : Type} (deL : Json → Except DeError L) :
    (∀ (entries : List (String × Json)) (p : String × Json), p ∈ entries →
      p.1 ∉ (["access_token", "scope", "lifetime", "id_token"] : List String) →
      ∃ e, Bearer.deserialize deL (Json.obj entries) = .error e)
    ∧ (∀ (entries : List (String × Json)) (st : DeState L),
        visitEntries deL entries {} = .ok st →
        ("access_token" ∉ entries.map Prod.fst →
          Bearer.deserialize deL (Json.obj entries) = .error (.missingField "access_token"))
        ∧ ("access_token" ∈ entries.map Prod.fst → "lifetime" ∉ entries.map Prod.fst →
          Bearer.deserialize deL (Json.obj entries) = .error (.missingField "lifetime")))
    ∧ (∀ (entries : List (String × Json)) (st : DeState L) (a : String) (l : L),
        visitEntries deL entries {} = .ok st →
        st.access_token = some a → st.lifetime = some l →
        "scope" ∉ entries.map Prod.fst → "id_token" ∉ entries.map Prod.fst →
        Bearer.deserialize deL (Json.obj entries)
          = .ok { access_token := a, scope := none, lifetime := l, id_token := none }) := by
  refine ⟨?_, ?_, ?_⟩
  · intro entries p hp hbad
    obtain ⟨e, he⟩ := visitEntries_error_of_bad_key deL entries {} p hp hbad
    exact ⟨e, by simp only [Bearer.deserialize, he]⟩
  · intro entries st h
    constructor
    · intro hna
      have hnone : st.access_token = none := by
        simpa using (visitEntries_unvisited_slots deL entries _ _ h).1 hna
      simp only [Bearer.deserialize, h, hnone]
    · intro hmem hnl
      have hsome := (visitEntries_filled_slots deL entries _ _ h).1 (Or.inr hmem)
      obtain ⟨a, hax⟩ := Option.isSome_iff_exists.mp hsome
      have hlnone : st.lifetime = none := by
        simpa using (visitEntries_unvisited_slots deL entries _ _ h).2.2.1 hnl
      simp only [Bearer.deserialize, h, hax, hlnone]
  · intro entries st a l h hax hl hns hni
    have hs : st.scope = none := by
      simpa using (visitEntries_unvisited_slots deL entries _ _ h).2.1 hns
    have hi : st.id_token = none := by
      simpa using (visitEntries_unvisited_slots deL entries _ _ h).2.2.2 hni
    simp only [Bearer.deserialize, h, hax, hl, hs, hi]

/-- Witness for C10: concrete persisted objects — an unknown field fails, a
missing `access_token` or `lifetime` gives the matching missing-field error,
and omitting `scope`/`id_token` succeeds with both `None`. -/
theorem bearer_deserialize_field_handling_witness :
    (∃ e, Bearer.deserialize Static.deserialize (Json.obj [("extra", Json.str "x")])
      = .error e)
    ∧ Bearer.deserialize Static.deserialize (Json.obj [("lifetime", Json.null)])
      = .error (.missingField "access_token")
    ∧ Bearer.deserialize Static.deserialize (Json.obj [("access_token", Json.str "foo")])
      = .error (.missingField "lifetime")
    ∧ Bearer.deserialize Static.deserialize
        (Json.obj [("access_token", Json.str "foo"), ("lifetime", Json.null)])
      = .ok { access_token := "foo", scope := none, lifetime := ⟨⟩, id_token := none } :=
  ⟨(bearer_deserialize_field_handling Static.deserialize).1
      [("extra", Json.str "x")] ("extra", Json.str "x") (by simp) (by decide),
   ((bearer_deserialize_field_handling Static.deserialize).2.1
      [("lifetime", Json.null)] ⟨none, none, some ⟨⟩, none⟩ (by rfl)).1 (by decide),
   ((bearer_deserialize_field_handling Static.deserialize).2.1
      [("access_token", Json.str "foo")] ⟨some "foo", none, none, none⟩ (by rfl)).2
      (by decide) (by decide),
   (bearer_deserialize_field_handling Static.deserialize).2.2
      [("access_token", Json.str "foo"), ("lifetime", Json.null)]
      ⟨some "foo", none, some ⟨⟩, none⟩ "foo" ⟨⟩ (by rfl) rfl rfl (by decide) (by decide)⟩

end InthOauth2
